import Mathlib

/-!
Shallow embedding of the crawl-queue and snapshot-deduplication subsystem of
the `db-gateway` service (Rust sources `src/db-gateway/src/lib.rs`,
`urls.rs`, `snapshots.rs`, `main.rs`) and proofs about it.

The Postgres tables `urls` and `snapshots` are modelled as lists of rows in
insertion order.  `uuid_generate_v4()` is modelled by the counter `nextId`;
`NOW()` by a logical clock that advances on every mutating SQL statement, so
`created_at` strictly orders rows — the specification's own invariant for
snapshot history ("A Snapshot's created_at strictly orders history").  The
`update_updated_at_column` trigger is modelled by setting `updated_at` on
every UPDATE of a row.  The handlers are sequential (one request at a time);
a Rust `unwrap()` on an `Err` is modelled by the explicit outcome
`HandlerResult.panicked`.
-/

instance {ε α : Type} [DecidableEq ε] [DecidableEq α] :
    DecidableEq (Except ε α) := fun x y =>
  match x, y with
  | .ok a, .ok b =>
    if h : a = b then isTrue (by rw [h]) else isFalse (by simp [h])
  | .error a, .error b =>
    if h : a = b then isTrue (by rw [h]) else isFalse (by simp [h])
  | .ok _, .error _ => isFalse (by simp)
  | .error _, .ok _ => isFalse (by simp)

/-- Parse errors of the external `url` crate that are relevant to
`validate_url`: `RelativeUrlWithoutBase` (scheme-less input) is the one
error the code converts to `Ok(false)`; `EmptyHost` stands for the other
error classes (a special-scheme URL whose authority is empty). -/
inductive ParseError where
  | relativeUrlWithoutBase
  | emptyHost
deriving DecidableEq, Repr

/-- Result of a successful parse: all the code ever asks of it is
`Url::has_host()`. -/
structure ParsedUrl where
  has_host : Bool
deriving DecidableEq, Repr

/-- Characters allowed in a URL scheme after the initial letter. -/
def isSchemeChar (c : Char) : Bool :=
  c.isAlphanum || c == '+' || c == '-' || c == '.'

/-- Split `scheme:rest`; `none` when the input has no scheme, which the
`url` crate reports as `RelativeUrlWithoutBase`. -/
def splitScheme (s : List Char) : Option (List Char × List Char) :=
  match s with
  | [] => none
  | c :: _ =>
    if c.isAlpha then
      let pre := s.takeWhile isSchemeChar
      match s.drop pre.length with
      | ':' :: r => some (pre.map Char.toLower, r)
      | _ => none
    else none

/-- Schemes for which the `url` crate requires a non-empty host. -/
def specialSchemes : List (List Char) :=
  [['h', 't', 't', 'p'], ['h', 't', 't', 'p', 's'], ['w', 's'],
   ['w', 's', 's'], ['f', 't', 'p']]

/-- Characters that terminate the host part of an authority. -/
def hostDelim (c : Char) : Bool :=
  c == '/' || c == '?' || c == '#' || c == ':'

/-- Modelled from the spec: `Url::parse` of the external `url` crate (a
dependency, not part of this repository's sources).  Only the behaviour
classes that `validate_url` distinguishes are modelled: a scheme-less input
fails with `RelativeUrlWithoutBase`; a special-scheme URL (`http`, `https`,
`ws`, `wss`, `ftp`) with an empty authority fails with `EmptyHost`; any
other parse succeeds and reports whether a host is present. -/
def urlParse (s : String) : Except ParseError ParsedUrl :=
  match splitScheme s.data with
  | none => .error .relativeUrlWithoutBase
  | some (scheme, rest) =>
    if scheme ∈ specialSchemes then
      let afterSlashes := rest.dropWhile (fun c => c == '/' || c == '\\')
      let host := afterSlashes.takeWhile (fun c => !hostDelim c)
      if host.isEmpty then .error .emptyHost else .ok ⟨true⟩
    else
      match rest with
      | '/' :: '/' :: r => .ok ⟨!(r.takeWhile (fun c => !hostDelim c)).isEmpty⟩
      | _ => .ok ⟨false⟩

/-- Embeds `validate_url` from `src/db-gateway/src/lib.rs` (an identical
copy sits in `main.rs`): `Ok(url.has_host())` on a successful parse,
`Ok(false)` on `RelativeUrlWithoutBase`, and the error itself otherwise. -/
def validate_url (url : String) : Except ParseError Bool :=
  match urlParse url with
  | .ok u => .ok u.has_host
  | .error .relativeUrlWithoutBase => .ok false
  | .error e => .error e

namespace urls

/-- The `Content` JSON object written into `urls.content`
(`src/db-gateway/src/urls.rs`): `{ url, crawled_at }`. -/
structure Content where
  url : Option String
  crawled_at : Option Nat
deriving DecidableEq, Repr

end urls

namespace snapshots

/-- The `Content` JSON object written into `snapshots.content`
(`src/db-gateway/src/snapshots.rs`): `{ url, html }`.  Equality of these
records models byte-equality of the stored JSON payloads. -/
structure Content where
  url : Option String
  html : Option String
deriving DecidableEq, Repr

end snapshots

/-- One row of the `urls` table. -/
structure UrlRow where
  id : Nat
  url : String
  content : Option urls.Content
  snapshot_id : Option Nat
  created_at : Nat
  updated_at : Nat
deriving DecidableEq, Repr

/-- One row of the `snapshots` table. -/
structure SnapshotRow where
  id : Nat
  url : String
  content : Option snapshots.Content
  created_at : Nat
  updated_at : Nat
deriving DecidableEq, Repr

/-- The content store: both tables in insertion order, the logical clock
modelling `NOW()`, and the id generator modelling `uuid_generate_v4()`. -/
structure Store where
  urls : List UrlRow
  snapshots : List SnapshotRow
  clock : Nat
  nextId : Nat
deriving DecidableEq, Repr

/-- HTTP status codes the handlers actually produce. -/
inductive Status where
  | ok
  | badRequest
  | internalServerError
deriving DecidableEq, Repr

/-- Outcome of a handler call: an HTTP response, or a Rust panic (an
`unwrap()` on an `Err`). -/
inductive HandlerResult where
  | resp (status : Status) (body : String)
  | panicked
deriving DecidableEq, Repr

/-- `SELECT * FROM urls ... ORDER BY updated_at ASC LIMIT 1` over a row
list: the first row holding the minimal `updated_at`. -/
def queryMinUpdated : List UrlRow → Option UrlRow
  | [] => none
  | x :: xs =>
    some (xs.foldl (fun b a => if a.updated_at < b.updated_at then a else b) x)

/-- `SELECT * FROM snapshots ... ORDER BY created_at DESC LIMIT 1` over a
row list: a row holding the maximal `created_at`. -/
def queryMaxCreated : List SnapshotRow → Option SnapshotRow
  | [] => none
  | x :: xs =>
    some (xs.foldl (fun b a => if b.created_at < a.created_at then a else b) x)

namespace urls

/-- Payload of `POST /api/urls` (`src/db-gateway/src/urls.rs`). -/
structure Payload where
  url : Option String
deriving DecidableEq, Repr

/-- Embeds `crawl_url` from `src/db-gateway/src/urls.rs`: builds a fresh
`Content { url, crawled_at: now }` and runs
`UPDATE urls SET content = $1 WHERE url = $2`; the trigger stamps
`updated_at`.  The UPDATE succeeds (affecting zero or more rows) whether or
not the URL is present. -/
def crawl_url (st : Store) (url : String) : Store :=
  let content : Content := { url := some url, crawled_at := some st.clock }
  { st with
    urls := st.urls.map fun u =>
      if u.url = url then
        { u with content := some content, updated_at := st.clock }
      else u,
    clock := st.clock + 1 }

/-- Embeds `insert_url` from `src/db-gateway/src/urls.rs`: validates the
URL (panicking if `validate_url` returns `Err`), then runs
`INSERT INTO urls (url, content) VALUES ($1, $2) ON CONFLICT (url) DO
NOTHING`, reporting "URL already exists" when no row was affected. -/
def insert_url (st : Store) (p : Payload) : HandlerResult × Store :=
  match p.url with
  | none => (.resp .badRequest "Missing url", st)
  | some url =>
    match validate_url url with
    | .error _ => (.panicked, st)
    | .ok false => (.resp .badRequest "only absolute urls are allowed", st)
    | .ok true =>
      let content : Content := { url := some url, crawled_at := none }
      if st.urls.any (fun u => u.url = url) then
        (.resp .ok "URL already exists", st)
      else
        (.resp .ok "Url inserted",
          { st with
            urls := st.urls ++
              [{ id := st.nextId, url := url, content := some content,
                 snapshot_id := none, created_at := st.clock,
                 updated_at := st.clock }]
            clock := st.clock + 1
            nextId := st.nextId + 1 })

end urls

namespace snapshots

/-- Payload of `POST /api/snapshots` (`src/db-gateway/src/snapshots.rs`). -/
structure Payload where
  url : Option String
  html : Option String
deriving DecidableEq, Repr

/-- Embeds `fetch_last_snapshot` from `src/db-gateway/src/snapshots.rs`:
`SELECT * FROM snapshots WHERE url = $1 ORDER BY created_at DESC LIMIT 1`,
then the row's `content` column (`None` when there is no row or the column
is NULL). -/
def fetch_last_snapshot (url : String) (st : Store) : Option Content :=
  match queryMaxCreated (st.snapshots.filter fun s => s.url = url) with
  | none => none
  | some row => row.content

/-- Embeds `add_relation_to_url` from `src/db-gateway/src/snapshots.rs`:
`UPDATE urls SET snapshot_id = $1 WHERE url = $2`; the trigger stamps
`updated_at`. -/
def add_relation_to_url (url : String) (snapshot_id : Nat) (st : Store) :
    Store :=
  { st with
    urls := st.urls.map fun u =>
      if u.url = url then
        { u with snapshot_id := some snapshot_id, updated_at := st.clock }
      else u,
    clock := st.clock + 1 }

/-- The insert-then-link tail of `insert_snapshot`
(`src/db-gateway/src/snapshots.rs` lines 188–219): `INSERT INTO snapshots
(url, content) VALUES ($1, $2) RETURNING *`, then
`add_relation_to_url(...).unwrap()`.  The two statements run directly on
the pool — there is no transaction.  `updateOk` models whether the second
statement's `Result` is `Ok`; on `Err` the `unwrap()` panics, leaving the
already-committed snapshot row behind. -/
def insertAndLink (updateOk : Bool) (st : Store) (url html : String) :
    HandlerResult × Store :=
  let row : SnapshotRow :=
    { id := st.nextId, url := url,
      content := some { url := some url, html := some html },
      created_at := st.clock, updated_at := st.clock }
  let st2 : Store :=
    { st with
      snapshots := st.snapshots ++ [row]
      clock := st.clock + 1
      nextId := st.nextId + 1 }
  if updateOk then
    (.resp .ok "Snapshot inserted", add_relation_to_url url row.id st2)
  else
    (.panicked, st2)

/-- Embeds `insert_snapshot` from `src/db-gateway/src/snapshots.rs` (the
handler exported by the library crate): payload checks, `validate_url`
(panicking on `Err`), `crawl_url`, `fetch_last_snapshot`, the duplicate
check on the stored `html`, and finally insert-then-link.  `updateOk`
parametrises the `Result` of the `UPDATE urls` statement (see
`insertAndLink`); the always-succeeding store is `insert_snapshot` below. -/
def insert_snapshot_core (updateOk : Bool) (st : Store) (p : Payload) :
    HandlerResult × Store :=
  match p.url with
  | none => (.resp .badRequest "Missing url", st)
  | some url =>
    match p.html with
    | none => (.resp .badRequest "Missing html", st)
    | some html =>
      match validate_url url with
      | .error _ => (.panicked, st)
      | .ok false => (.resp .badRequest "only absolute urls are allowed", st)
      | .ok true =>
        let st1 := urls.crawl_url st url
        match fetch_last_snapshot url st1 with
        | some last =>
          if last.html = some html then
            (.resp .ok "No need to insert the same content twice.", st1)
          else
            insertAndLink updateOk st1 url html
        | none => insertAndLink updateOk st1 url html

/-- `insert_snapshot` with every store statement succeeding. -/
def insert_snapshot (st : Store) (p : Payload) : HandlerResult × Store :=
  insert_snapshot_core true st p

end snapshots

/-- Embeds `fetch_url_to_snapshot` from `src/db-gateway/src/main.rs` (the
handler wired to `GET /api/url` in the router): first
`SELECT * FROM urls WHERE snapshot_id IS NULL ORDER BY updated_at ASC
LIMIT 1`; if empty, the fallback `SELECT * FROM urls ORDER BY updated_at
ASC LIMIT 1`; if that is also empty, a 500 with `data: null`.  (The unused
library draft in `snapshots.rs` has the same primary query but orders its
fallback by `content->>'crawled_at' NULLS FIRST`.) -/
def fetch_url_to_snapshot (st : Store) : Status × Option String :=
  match queryMinUpdated (st.urls.filter fun u => u.snapshot_id = none) with
  | some r => (.ok, some r.url)
  | none =>
    match queryMinUpdated st.urls with
    | some r => (.ok, some r.url)
    | none => (.internalServerError, none)

/-- Well-formedness of the snapshot table maintained by the model's clock:
rows are strictly ordered by `created_at` in insertion order, and every
`created_at` lies in the past of the clock. -/
def SnapWF (st : Store) : Prop :=
  List.Pairwise (fun a b => a.created_at < b.created_at) st.snapshots ∧
  ∀ s ∈ st.snapshots, s.created_at < st.clock

/-- The deduplication invariant of the spec: for every URL, no two
consecutive snapshots (adjacent in `created_at` order) hold byte-identical
content. -/
def NoDupConsec (st : Store) : Prop :=
  ∀ url : String,
    List.Chain' (fun a b => a.content ≠ b.content)
      (st.snapshots.filter fun s => s.url = url)

/-- The empty store. -/
def emptyStore : Store := ⟨[], [], 0, 0⟩

/-! ### Helper lemmas about the row-selection folds -/

/-- The fold behind `queryMinUpdated` picks an element of the list. -/
theorem minFold_mem :
    ∀ (l : List UrlRow) (x : UrlRow),
      l.foldl (fun b a => if a.updated_at < b.updated_at then a else b) x ∈
        x :: l := by
  intro l
  induction l with
  | nil => intro x; simp
  | cons a t ih =>
    intro x
    have h := ih (if a.updated_at < x.updated_at then a else x)
    simp only [List.foldl_cons]
    rcases List.mem_cons.mp h with h1 | h1
    · rw [h1]
      split
      · exact List.mem_cons_of_mem _ (List.mem_cons_self _ _)
      · exact List.mem_cons_self _ _
    · exact List.mem_cons_of_mem _ (List.mem_cons_of_mem _ h1)

/-- The fold behind `queryMinUpdated` minimises `updated_at`. -/
theorem minFold_le :
    ∀ (l : List UrlRow) (x : UrlRow) (a : UrlRow), a ∈ x :: l →
      (l.foldl (fun b a => if a.updated_at < b.updated_at then a else b)
          x).updated_at ≤ a.updated_at := by
  intro l
  induction l with
  | nil =>
    intro x a ha
    rcases List.mem_cons.mp ha with rfl | h
    · simp
    · simp at h
  | cons b t ih =>
    intro x a ha
    simp only [List.foldl_cons]
    have hyx :
        ((if b.updated_at < x.updated_at then b else x)).updated_at ≤
          x.updated_at := by
      split
      · omega
      · exact Nat.le_refl _
    have hyb :
        ((if b.updated_at < x.updated_at then b else x)).updated_at ≤
          b.updated_at := by
      split
      · exact Nat.le_refl _
      · omega
    rcases List.mem_cons.mp ha with rfl | ha'
    · exact Nat.le_trans
        (ih _ _ (List.mem_cons_self _ _)) hyx
    · rcases List.mem_cons.mp ha' with rfl | ha''
      · exact Nat.le_trans
          (ih _ _ (List.mem_cons_self _ _)) hyb
      · exact ih _ a (List.mem_cons_of_mem _ ha'')

/-- `queryMinUpdated` returns `none` exactly on the empty list. -/
theorem queryMinUpdated_eq_none :
    ∀ (l : List UrlRow), queryMinUpdated l = none ↔ l = [] := by
  intro l
  cases l with
  | nil => simp [queryMinUpdated]
  | cons x xs => simp [queryMinUpdated]

/-- A row returned by `queryMinUpdated` is in the list. -/
theorem queryMinUpdated_mem {l : List UrlRow} {r : UrlRow}
    (h : queryMinUpdated l = some r) : r ∈ l := by
  cases l with
  | nil => simp [queryMinUpdated] at h
  | cons x xs =>
    simp only [queryMinUpdated, Option.some.injEq] at h
    rw [← h]
    exact minFold_mem xs x

/-- A row returned by `queryMinUpdated` has minimal `updated_at`. -/
theorem queryMinUpdated_le {l : List UrlRow} {r : UrlRow}
    (h : queryMinUpdated l = some r) :
    ∀ a ∈ l, r.updated_at ≤ a.updated_at := by
  cases l with
  | nil => simp [queryMinUpdated] at h
  | cons x xs =>
    simp only [queryMinUpdated, Option.some.injEq] at h
    rw [← h]
    exact fun a ha => minFold_le xs x a ha

/-- On a list strictly ascending in `created_at`, the fold behind
`queryMaxCreated` picks the last element. -/
theorem maxFold_getLast :
    ∀ (l : List SnapshotRow) (x : SnapshotRow),
      List.Pairwise (fun a b => a.created_at < b.created_at) (x :: l) →
      some (l.foldl
          (fun b a => if b.created_at < a.created_at then a else b) x) =
        (x :: l).getLast? := by
  intro l
  induction l with
  | nil => intro x _; rfl
  | cons a t ih =>
    intro x hp
    have hxa : x.created_at < a.created_at :=
      (List.pairwise_cons.mp hp).1 a (List.mem_cons_self _ _)
    simp only [List.foldl_cons]
    rw [if_pos hxa, ih a (List.pairwise_cons.mp hp).2,
      List.getLast?_cons_cons]

/-- Appending a row with a strictly larger `created_at` makes the fold
behind `queryMaxCreated` return exactly that row. -/
theorem maxFold_append :
    ∀ (l : List SnapshotRow) (x z : SnapshotRow),
      x.created_at < z.created_at →
      (∀ a ∈ l, a.created_at < z.created_at) →
      (l ++ [z]).foldl
          (fun b a => if b.created_at < a.created_at then a else b) x = z := by
  intro l
  induction l with
  | nil =>
    intro x z hx _
    simp [hx]
  | cons a t ih =>
    intro x z hx hl
    simp only [List.cons_append, List.foldl_cons]
    apply ih
    · split
      · exact hl a (List.mem_cons_self _ _)
      · exact hx
    · intro b hb
      exact hl b (List.mem_cons_of_mem _ hb)

/-- On a list strictly ascending in `created_at` (the store invariant),
`ORDER BY created_at DESC LIMIT 1` returns the last row. -/
theorem queryMaxCreated_eq_getLast {l : List SnapshotRow}
    (hp : List.Pairwise (fun a b => a.created_at < b.created_at) l) :
    queryMaxCreated l = l.getLast? := by
  cases l with
  | nil => rfl
  | cons x xs =>
    simp only [queryMaxCreated]
    exact maxFold_getLast xs x hp

/-- `ORDER BY created_at DESC LIMIT 1` after appending a strictly newer
row returns the new row. -/
theorem queryMaxCreated_append {l : List SnapshotRow} {z : SnapshotRow}
    (h : ∀ a ∈ l, a.created_at < z.created_at) :
    queryMaxCreated (l ++ [z]) = some z := by
  cases l with
  | nil => rfl
  | cons x xs =>
    simp only [List.cons_append, queryMaxCreated, Option.some.injEq]
    exact maxFold_append xs x z (h x (List.mem_cons_self _ _))
      (fun a ha => h a (List.mem_cons_of_mem _ ha))

/-! ### Crawl Selector (C3, C5, C6) -/

/-- C6: whenever at least one UrlEntry has no snapshot reference, the
selector returns the URL of a never-snapshotted UrlEntry whose
`updated_at` is minimal among all never-snapshotted entries. -/
theorem fetch_url_to_snapshot_primary_oldest_unsnapshotted
    (st : Store) (h : ∃ u ∈ st.urls, u.snapshot_id = none) :
    ∃ r ∈ st.urls, r.snapshot_id = none ∧
      fetch_url_to_snapshot st = (.ok, some r.url) ∧
      ∀ v ∈ st.urls, v.snapshot_id = none → r.updated_at ≤ v.updated_at := by
  obtain ⟨u, hu, hnull⟩ := h
  have hmem : u ∈ st.urls.filter (fun v => v.snapshot_id = none) := by
    simp [List.mem_filter, hu, hnull]
  rcases hq : queryMinUpdated
      (st.urls.filter (fun v => v.snapshot_id = none)) with _ | r
  · rw [queryMinUpdated_eq_none] at hq
    rw [hq] at hmem
    simp at hmem
  · have hr := queryMinUpdated_mem hq
    refine ⟨r, (List.mem_filter.mp hr).1, ?_, ?_, ?_⟩
    · simpa using (List.mem_filter.mp hr).2
    · unfold fetch_url_to_snapshot
      rw [hq]
    · intro v hv hvnull
      apply queryMinUpdated_le hq
      simp [List.mem_filter, hv, hvnull]

/-- Witness for C6: with never-crawled `A` updated at 1 and `B` updated at
2, the selector returns `A`. -/
theorem fetch_url_to_snapshot_primary_oldest_unsnapshotted_witness :
    (∃ u ∈ (Store.mk
        [⟨0, "http://a.com", none, none, 1, 1⟩,
         ⟨1, "http://b.com", none, none, 2, 2⟩] [] 3 2).urls,
      u.snapshot_id = none) ∧
    (∃ r ∈ (Store.mk
        [⟨0, "http://a.com", none, none, 1, 1⟩,
         ⟨1, "http://b.com", none, none, 2, 2⟩] [] 3 2).urls,
      r.snapshot_id = none ∧
      fetch_url_to_snapshot (Store.mk
        [⟨0, "http://a.com", none, none, 1, 1⟩,
         ⟨1, "http://b.com", none, none, 2, 2⟩] [] 3 2) = (.ok, some r.url) ∧
      ∀ v ∈ (Store.mk
        [⟨0, "http://a.com", none, none, 1, 1⟩,
         ⟨1, "http://b.com", none, none, 2, 2⟩] [] 3 2).urls,
        v.snapshot_id = none → r.updated_at ≤ v.updated_at) ∧
    fetch_url_to_snapshot (Store.mk
        [⟨0, "http://a.com", none, none, 1, 1⟩,
         ⟨1, "http://b.com", none, none, 2, 2⟩] [] 3 2) =
      (.ok, some "http://a.com") :=
  ⟨by decide,
   fetch_url_to_snapshot_primary_oldest_unsnapshotted _ (by decide),
   by decide⟩

/-- C3: on a non-empty UrlEntry set where every entry already has a
snapshot reference, the selector falls back to the globally
least-recently-updated entry and never returns an empty result. -/
theorem fetch_url_to_snapshot_fallback_oldest_updated
    (st : Store) (hne : st.urls ≠ [])
    (hall : ∀ u ∈ st.urls, u.snapshot_id ≠ none) :
    ∃ r ∈ st.urls,
      fetch_url_to_snapshot st = (.ok, some r.url) ∧
      ∀ v ∈ st.urls, r.updated_at ≤ v.updated_at := by
  have hfl : st.urls.filter (fun u => u.snapshot_id = none) = [] := by
    rw [List.filter_eq_nil_iff]
    intro a ha
    simpa using hall a ha
  rcases hq : queryMinUpdated st.urls with _ | r
  · rw [queryMinUpdated_eq_none] at hq
    exact absurd hq hne
  · refine ⟨r, queryMinUpdated_mem hq, ?_, queryMinUpdated_le hq⟩
    unfold fetch_url_to_snapshot
    rw [hfl, hq]
    rfl

/-- Witness for C3: two entries, both referencing snapshots; the selector
returns the one with the older `updated_at`. -/
theorem fetch_url_to_snapshot_fallback_oldest_updated_witness :
    (Store.mk
        [⟨0, "http://a.com", none, some 7, 1, 9⟩,
         ⟨1, "http://b.com", none, some 8, 2, 4⟩] [] 10 2).urls ≠ [] ∧
    (∀ u ∈ (Store.mk
        [⟨0, "http://a.com", none, some 7, 1, 9⟩,
         ⟨1, "http://b.com", none, some 8, 2, 4⟩] [] 10 2).urls,
      u.snapshot_id ≠ none) ∧
    (∃ r ∈ (Store.mk
        [⟨0, "http://a.com", none, some 7, 1, 9⟩,
         ⟨1, "http://b.com", none, some 8, 2, 4⟩] [] 10 2).urls,
      fetch_url_to_snapshot (Store.mk
        [⟨0, "http://a.com", none, some 7, 1, 9⟩,
         ⟨1, "http://b.com", none, some 8, 2, 4⟩] [] 10 2) =
        (.ok, some r.url) ∧
      ∀ v ∈ (Store.mk
        [⟨0, "http://a.com", none, some 7, 1, 9⟩,
         ⟨1, "http://b.com", none, some 8, 2, 4⟩] [] 10 2).urls,
        r.updated_at ≤ v.updated_at) ∧
    fetch_url_to_snapshot (Store.mk
        [⟨0, "http://a.com", none, some 7, 1, 9⟩,
         ⟨1, "http://b.com", none, some 8, 2, 4⟩] [] 10 2) =
      (.ok, some "http://b.com") :=
  ⟨by decide, by decide,
   fetch_url_to_snapshot_fallback_oldest_updated _ (by decide) (by decide),
   by decide⟩

/-- C5 counterexample: on the empty store the selector does return an
empty `data`, but the response status is 500 INTERNAL_SERVER_ERROR — the
empty-store outcome is reported as a server error, contrary to the claim
that it is not reported as an error. -/
theorem fetch_url_to_snapshot_empty_counterexample :
    emptyStore.urls = [] ∧
    fetch_url_to_snapshot emptyStore = (.internalServerError, none) ∧
    (fetch_url_to_snapshot emptyStore).1 ≠ .ok := by decide

/-- C5 amended: when the UrlEntry set is empty the selector returns no
URL (`data：null`) with status 500 INTERNAL_SERVER_ERROR. -/
theorem fetch_url_to_snapshot_empty_returns_500
    (st : Store) (h : st.urls = []) :
    fetch_url_to_snapshot st = (.internalServerError, none) := by
  unfold fetch_url_to_snapshot
  rw [h]
  rfl

/-- Witness for the amended C5 on a store that is empty of URLs but not of
snapshots. -/
theorem fetch_url_to_snapshot_empty_returns_500_witness :
    (Store.mk [] [⟨0, "http://a.com", none, 5, 5⟩] 9 3).urls = [] ∧
    fetch_url_to_snapshot (Store.mk [] [⟨0, "http://a.com", none, 5, 5⟩] 9 3)
      = (.internalServerError, none) :=
  ⟨rfl, fetch_url_to_snapshot_empty_returns_500 _ rfl⟩

/-! ### URL submission (C8) and URL validation (C7, C9) -/

/-- C8: submitting a fresh valid URL twice inserts exactly one UrlEntry
row; the second call reports "URL already exists" and leaves the store
untouched. -/
theorem insert_url_idempotent
    (st : Store) (url : String)
    (hv : validate_url url = .ok true)
    (h0 : ∀ u ∈ st.urls, u.url ≠ url) :
    (urls.insert_url st ⟨some url⟩).1 = .resp .ok "Url inserted" ∧
    (urls.insert_url (urls.insert_url st ⟨some url⟩).2 ⟨some url⟩).1 =
      .resp .ok "URL already exists" ∧
    (urls.insert_url (urls.insert_url st ⟨some url⟩).2 ⟨some url⟩).2 =
      (urls.insert_url st ⟨some url⟩).2 ∧
    ((urls.insert_url (urls.insert_url st ⟨some url⟩).2
        ⟨some url⟩).2.urls.filter (fun u => u.url = url)).length = 1 := by
  have hany : st.urls.any (fun u => u.url = url) = false := by
    rw [List.any_eq_false]
    intro a ha
    simpa using h0 a ha
  have hfl : st.urls.filter (fun u => u.url = url) = [] := by
    rw [List.filter_eq_nil_iff]
    intro a ha
    simpa using h0 a ha
  refine ⟨?_, ?_, ?_, ?_⟩
  · simp [urls.insert_url, hv, hany]
  · simp [urls.insert_url, hv, hany, List.any_append]
  · simp [urls.insert_url, hv, hany, List.any_append]
  · simp [urls.insert_url, hv, hany, List.any_append, List.filter_append,
      hfl]

/-- Witness for C8 at the empty store and a concrete URL. -/
theorem insert_url_idempotent_witness :
    validate_url "http://a.com" = .ok true ∧
    (∀ u ∈ emptyStore.urls, u.url ≠ "http://a.com") ∧
    ((urls.insert_url emptyStore ⟨some "http://a.com"⟩).1 =
        .resp .ok "Url inserted" ∧
      (urls.insert_url (urls.insert_url emptyStore ⟨some "http://a.com"⟩).2
          ⟨some "http://a.com"⟩).1 = .resp .ok "URL already exists" ∧
      (urls.insert_url (urls.insert_url emptyStore ⟨some "http://a.com"⟩).2
          ⟨some "http://a.com"⟩).2 =
        (urls.insert_url emptyStore ⟨some "http://a.com"⟩).2 ∧
      ((urls.insert_url (urls.insert_url emptyStore
          ⟨some "http://a.com"⟩).2 ⟨some "http://a.com"⟩).2.urls.filter
            (fun u => u.url = "http://a.com")).length = 1) :=
  ⟨by decide, by decide,
   insert_url_idempotent emptyStore "http://a.com" (by decide) (by decide)⟩

/-- C9: `Url::parse("http://")` fails with `EmptyHost`, which is not
`RelativeUrlWithoutBase`, so `validate_url` returns `Err` and the
`.unwrap()` in both handlers panics instead of producing the 4xx
"only absolute urls are allowed" response. -/
theorem validate_url_unwrap_panics_on_empty_host :
    validate_url "http://" = .error .emptyHost ∧
    urls.insert_url emptyStore ⟨some "http://"⟩ = (.panicked, emptyStore) ∧
    snapshots.insert_snapshot emptyStore ⟨some "http://", some "x"⟩ =
      (.panicked, emptyStore) := by decide

/-- C7 counterexample: "http://" is not an absolute URL with a host, yet
the snapshot-write operation does not produce the InvalidUrl (400)
response for it — it panics on the `unwrap` of `validate_url`'s `Err`. -/
theorem insert_snapshot_empty_host_counterexample :
    validate_url "http://" ≠ .ok true ∧
    (snapshots.insert_snapshot emptyStore ⟨some "http://", some "h"⟩).1 ≠
      .resp .badRequest "only absolute urls are allowed" ∧
    (snapshots.insert_snapshot emptyStore ⟨some "http://", some "h"⟩).1 =
      .panicked := by decide

/-- C7 amended: for every input the validator does not accept, no store
operation happens (the store is unchanged); the response is the
InvalidUrl 400 exactly when `validate_url` returns `Ok(false)`, and a
panic when it returns `Err`. -/
theorem insert_snapshot_invalid_url_no_write
    (st : Store) (url html : String)
    (h : validate_url url ≠ .ok true) :
    (snapshots.insert_snapshot st ⟨some url, some html⟩).2 = st ∧
    (validate_url url = .ok false →
      (snapshots.insert_snapshot st ⟨some url, some html⟩).1 =
        .resp .badRequest "only absolute urls are allowed") ∧
    (∀ e, validate_url url = .error e →
      (snapshots.insert_snapshot st ⟨some url, some html⟩).1 =
        .panicked) := by
  rcases hv : validate_url url with e | b
  · refine ⟨?_, ?_, ?_⟩
    · simp [snapshots.insert_snapshot, snapshots.insert_snapshot_core, hv]
    · intro hc
      exact absurd hc (by simp)
    · intro e' _
      simp [snapshots.insert_snapshot, snapshots.insert_snapshot_core, hv]
  · cases b with
    | false =>
      refine ⟨?_, ?_, ?_⟩
      · simp [snapshots.insert_snapshot, snapshots.insert_snapshot_core, hv]
      · intro _
        simp [snapshots.insert_snapshot, snapshots.insert_snapshot_core, hv]
      · intro e' hc
        exact absurd hc (by simp)
    | true => exact absurd hv h

/-- Witness for the amended C7 at the spec's own example input. -/
theorem insert_snapshot_invalid_url_no_write_witness :
    validate_url "not-a-url" ≠ .ok true ∧
    validate_url "not-a-url" = .ok false ∧
    ((snapshots.insert_snapshot emptyStore
        ⟨some "not-a-url", some "h"⟩).2 = emptyStore ∧
      (snapshots.insert_snapshot emptyStore ⟨some "not-a-url", some "h"⟩).1 =
        .resp .badRequest "only absolute urls are allowed") :=
  ⟨by decide, by decide,
   (insert_snapshot_invalid_url_no_write emptyStore "not-a-url" "h"
      (by decide)).1,
   (insert_snapshot_invalid_url_no_write emptyStore "not-a-url" "h"
      (by decide)).2.1 (by decide)⟩

/-! ### Snapshot Writer failure atomicity (C2) -/

/-- C2: the two writes of the snapshot-write operation are two separate
statements with no surrounding transaction.  Evaluating the handler with
the `UPDATE urls` statement failing (after a successful `INSERT INTO
snapshots`) leaves the inserted Snapshot row committed while no UrlEntry
references it: the handler panics, one snapshot row (id 1) exists, and the
UrlEntry's `snapshot_id` is still NULL — the "phantom insert" the claimed
single transaction would rule out. -/
theorem insert_snapshot_update_failure_leaves_unreferenced_row :
    (snapshots.insert_snapshot_core false
        (Store.mk [⟨0, "http://example.com", none, none, 0, 0⟩] [] 1 1)
        ⟨some "http://example.com", some "hello"⟩).1 = .panicked ∧
    ((snapshots.insert_snapshot_core false
        (Store.mk [⟨0, "http://example.com", none, none, 0, 0⟩] [] 1 1)
        ⟨some "http://example.com", some "hello"⟩).2.snapshots.map
      (fun s => (s.id, s.url))) = [(1, "http://example.com")] ∧
    (snapshots.insert_snapshot_core false
        (Store.mk [⟨0, "http://example.com", none, none, 0, 0⟩] [] 1 1)
        ⟨some "http://example.com", some "hello"⟩).2.urls.map
      UrlRow.snapshot_id = [none] := by decide

/-! ### Duplicate submissions and their side effects (C10, C1) -/

/-- `crawl_url` leaves the snapshots table untouched. -/
theorem crawl_url_snapshots (st : Store) (url : String) :
    (urls.crawl_url st url).snapshots = st.snapshots := rfl

/-- `crawl_url` leaves every row's `snapshot_id` unchanged. -/
theorem crawl_url_snapshot_ids (st : Store) (url : String) :
    (urls.crawl_url st url).urls.map UrlRow.snapshot_id =
      st.urls.map UrlRow.snapshot_id := by
  simp only [urls.crawl_url, List.map_map]
  apply List.map_congr_left
  intro u _
  by_cases h : u.url = url <;> simp [h]

/-- `fetch_last_snapshot` reads only the snapshots table, which
`crawl_url` does not touch. -/
theorem fetch_last_snapshot_crawl (url u2 : String) (st : Store) :
    snapshots.fetch_last_snapshot url (urls.crawl_url st u2) =
      snapshots.fetch_last_snapshot url st := rfl

/-- C10: a snapshot submission that ends in the Duplicate outcome still
mutates the UrlEntry: `crawl_url` runs before the duplicate check and
overwrites the entry's whole `content` with a fresh
`{ url, crawled_at: now }` object (and the trigger bumps `updated_at`),
while the snapshots table and the entry's `snapshot_id` stay unchanged. -/
theorem insert_snapshot_duplicate_crawl_side_effect
    (st : Store) (url html : String) (c : snapshots.Content)
    (hv : validate_url url = .ok true)
    (hlast : snapshots.fetch_last_snapshot url st = some c)
    (hdup : c.html = some html) :
    (snapshots.insert_snapshot st ⟨some url, some html⟩).1 =
      .resp .ok "No need to insert the same content twice." ∧
    (snapshots.insert_snapshot st ⟨some url, some html⟩).2.snapshots =
      st.snapshots ∧
    (snapshots.insert_snapshot st ⟨some url, some html⟩).2.urls.map
      UrlRow.snapshot_id = st.urls.map UrlRow.snapshot_id ∧
    ∀ u ∈ (snapshots.insert_snapshot st ⟨some url, some html⟩).2.urls,
      u.url = url →
        u.content = some ⟨some url, some st.clock⟩ ∧
        u.updated_at = st.clock := by
  have hlast' :
      snapshots.fetch_last_snapshot url (urls.crawl_url st url) = some c :=
    hlast
  have hred : snapshots.insert_snapshot st ⟨some url, some html⟩ =
      (.resp .ok "No need to insert the same content twice.",
        urls.crawl_url st url) := by
    simp [snapshots.insert_snapshot, snapshots.insert_snapshot_core, hv,
      hlast', hdup]
  refine ⟨?_, ?_, ?_, ?_⟩
  · rw [hred]
  · rw [hred]
    rfl
  · rw [hred]
    exact crawl_url_snapshot_ids st url
  · rw [hred]
    intro u hu huu
    simp only [urls.crawl_url, List.mem_map] at hu
    obtain ⟨v, hv', hveq⟩ := hu
    by_cases hvu : v.url = url
    · rw [← hveq]
      simp [hvu]
    · rw [← hveq] at huu
      simp [hvu] at huu

/-- Witness for C10: a duplicate submission against a one-entry store. -/
theorem insert_snapshot_duplicate_crawl_side_effect_witness :
    validate_url "http://a.com" = .ok true ∧
    snapshots.fetch_last_snapshot "http://a.com"
        (Store.mk [⟨0, "http://a.com", none, some 1, 0, 0⟩]
          [⟨1, "http://a.com", some ⟨some "http://a.com", some "H"⟩, 2, 2⟩]
          3 2) =
      some ⟨some "http://a.com", some "H"⟩ ∧
    ((snapshots.insert_snapshot
        (Store.mk [⟨0, "http://a.com", none, some 1, 0, 0⟩]
          [⟨1, "http://a.com", some ⟨some "http://a.com", some "H"⟩, 2, 2⟩]
          3 2) ⟨some "http://a.com", some "H"⟩).1 =
      .resp .ok "No need to insert the same content twice." ∧
    (snapshots.insert_snapshot
        (Store.mk [⟨0, "http://a.com", none, some 1, 0, 0⟩]
          [⟨1, "http://a.com", some ⟨some "http://a.com", some "H"⟩, 2, 2⟩]
          3 2) ⟨some "http://a.com", some "H"⟩).2.snapshots =
      (Store.mk [⟨0, "http://a.com", none, some 1, 0, 0⟩]
          [⟨1, "http://a.com", some ⟨some "http://a.com", some "H"⟩, 2, 2⟩]
          3 2).snapshots ∧
    (snapshots.insert_snapshot
        (Store.mk [⟨0, "http://a.com", none, some 1, 0, 0⟩]
          [⟨1, "http://a.com", some ⟨some "http://a.com", some "H"⟩, 2, 2⟩]
          3 2) ⟨some "http://a.com", some "H"⟩).2.urls.map
      UrlRow.snapshot_id =
      (Store.mk [⟨0, "http://a.com", none, some 1, 0, 0⟩]
          [⟨1, "http://a.com", some ⟨some "http://a.com", some "H"⟩, 2, 2⟩]
          3 2).urls.map UrlRow.snapshot_id ∧
    ∀ u ∈ (snapshots.insert_snapshot
        (Store.mk [⟨0, "http://a.com", none, some 1, 0, 0⟩]
          [⟨1, "http://a.com", some ⟨some "http://a.com", some "H"⟩, 2, 2⟩]
          3 2) ⟨some "http://a.com", some "H"⟩).2.urls,
      u.url = "http://a.com" →
        u.content = some ⟨some "http://a.com", some 3⟩ ∧
        u.updated_at = 3) :=
  ⟨by decide, by decide,
   insert_snapshot_duplicate_crawl_side_effect
     (Store.mk [⟨0, "http://a.com", none, some 1, 0, 0⟩]
       [⟨1, "http://a.com", some ⟨some "http://a.com", some "H"⟩, 2, 2⟩]
       3 2)
     "http://a.com" "H" ⟨some "http://a.com", some "H"⟩
     (by decide) (by decide) (by decide)⟩

/-- Invariants survive any step that leaves the snapshots table unchanged
and does not rewind the clock. -/
theorem SnapWF_same_snapshots {st st' : Store}
    (hs : st'.snapshots = st.snapshots) (hc : st.clock ≤ st'.clock)
    (h : SnapWF st) : SnapWF st' := by
  constructor
  · rw [hs]
    exact h.1
  · intro s hsmem
    rw [hs] at hsmem
    exact Nat.lt_of_lt_of_le (h.2 s hsmem) hc

/-- The dedup invariant only depends on the snapshots table. -/
theorem NoDupConsec_same_snapshots {st st' : Store}
    (hs : st'.snapshots = st.snapshots) (h : NoDupConsec st) :
    NoDupConsec st' := by
  intro url
  rw [hs]
  exact h url

/-- Appending a row stamped with the current clock preserves `SnapWF`. -/
theorem SnapWF_insert (st : Store) (row : SnapshotRow)
    (h : SnapWF st) (hrow : row.created_at = st.clock) (st' : Store)
    (hs : st'.snapshots = st.snapshots ++ [row])
    (hc : st.clock < st'.clock) : SnapWF st' := by
  constructor
  · rw [hs, List.pairwise_append]
    refine ⟨h.1, List.pairwise_singleton _ _, ?_⟩
    intro a ha b hb
    rw [List.mem_singleton] at hb
    subst hb
    rw [hrow]
    exact h.2 a ha
  · intro s hsmem
    rw [hs, List.mem_append] at hsmem
    rcases hsmem with hm | hm
    · exact Nat.lt_trans (h.2 s hm) hc
    · rw [List.mem_singleton] at hm
      subst hm
      rw [hrow]
      exact hc

/-- Appending a snapshot row whose content differs from the newest stored
snapshot of its URL preserves the dedup invariant. -/
theorem NoDupConsec_insert (st : Store) (url html : String)
    (hWF : SnapWF st) (hND : NoDupConsec st)
    (hbranch : ∀ row,
      queryMaxCreated (st.snapshots.filter fun s => s.url = url) =
        some row →
      ∀ c : snapshots.Content, row.content = some c → c.html ≠ some html)
    (row : SnapshotRow)
    (hrowc : row.content = some ⟨some url, some html⟩)
    (hrowu : row.url = url)
    (st' : Store)
    (hs : st'.snapshots = st.snapshots ++ [row]) :
    NoDupConsec st' := by
  intro url'
  rw [hs, List.filter_append]
  by_cases hu : url' = url
  · subst hu
    have hf1 : List.filter (fun s => s.url = url') [row] = [row] := by
      simp [hrowu]
    rw [hf1, List.chain'_append]
    refine ⟨hND url', List.chain'_singleton _, ?_⟩
    intro x hx y hy
    simp only [List.head?_cons, Option.mem_def, Option.some.injEq] at hy
    subst hy
    rw [Option.mem_def] at hx
    have hpl : List.Pairwise (fun a b => a.created_at < b.created_at)
        (st.snapshots.filter fun s => s.url = url') :=
      hWF.1.sublist (List.filter_sublist _)
    have hq : queryMaxCreated
        (st.snapshots.filter fun s => s.url = url') = some x := by
      rw [queryMaxCreated_eq_getLast hpl]
      exact hx
    rcases hxc : x.content with _ | c
    · rw [hrowc]
      simp
    · have hne := hbranch x hq c hxc
      rw [hrowc]
      intro hcontra
      apply hne
      injection hcontra with h1
      rw [h1]
  · have hune : url ≠ url' := fun hcc => hu hcc.symm
    have hf1 : List.filter (fun s => s.url = url') [row] = [] := by
      simp [hrowu, hune]
    rw [hf1, List.append_nil]
    exact hND url'

/-- The insert-then-link tail preserves both store invariants, provided
the newest stored snapshot for the URL (if any) does not already hold the
submitted `html`. -/
theorem insertAndLink_preserves (st1 : Store) (url html : String)
    (hWF : SnapWF st1) (hND : NoDupConsec st1)
    (hbranch : ∀ row,
      queryMaxCreated (st1.snapshots.filter fun s => s.url = url) =
        some row →
      ∀ c : snapshots.Content, row.content = some c →
        c.html ≠ some html) :
    SnapWF (snapshots.insertAndLink true st1 url html).2 ∧
    NoDupConsec (snapshots.insertAndLink true st1 url html).2 := by
  have hsnap : (snapshots.insertAndLink true st1 url html).2.snapshots =
      st1.snapshots ++
        [⟨st1.nextId, url, some ⟨some url, some html⟩,
          st1.clock, st1.clock⟩] := rfl
  have hclock : (snapshots.insertAndLink true st1 url html).2.clock =
      st1.clock + 2 := rfl
  constructor
  · exact SnapWF_insert st1 _ hWF rfl _ hsnap
      (by rw [hclock]; omega)
  · exact NoDupConsec_insert st1 url html hWF hND hbranch _ rfl rfl _ hsnap

/-- C1: when the submitted content is byte-equal to the URL's most recent
stored Snapshot, the operation answers with the Duplicate outcome, inserts
no snapshot row and updates no snapshot reference; and every
snapshot-write call preserves the invariant that no two consecutive
Snapshots of a URL hold byte-identical content. -/
theorem insert_snapshot_dedup_guarantee :
    (∀ (st : Store) (url html : String),
      validate_url url = .ok true →
      snapshots.fetch_last_snapshot url st = some ⟨some url, some html⟩ →
      (snapshots.insert_snapshot st ⟨some url, some html⟩).1 =
        .resp .ok "No need to insert the same content twice." ∧
      (snapshots.insert_snapshot st ⟨some url, some html⟩).2.snapshots =
        st.snapshots ∧
      (snapshots.insert_snapshot st ⟨some url, some html⟩).2.urls.map
        UrlRow.snapshot_id = st.urls.map UrlRow.snapshot_id) ∧
    (∀ (st : Store) (p : snapshots.Payload),
      SnapWF st → NoDupConsec st →
      SnapWF (snapshots.insert_snapshot st p).2 ∧
      NoDupConsec (snapshots.insert_snapshot st p).2) := by
  constructor
  · intro st url html hv hlast
    have hlast' : snapshots.fetch_last_snapshot url (urls.crawl_url st url) =
        some ⟨some url, some html⟩ := hlast
    have hred : snapshots.insert_snapshot st ⟨some url, some html⟩ =
        (.resp .ok "No need to insert the same content twice.",
          urls.crawl_url st url) := by
      simp [snapshots.insert_snapshot, snapshots.insert_snapshot_core, hv,
        hlast']
    refine ⟨by rw [hred], by rw [hred]; rfl, ?_⟩
    rw [hred]
    exact crawl_url_snapshot_ids st url
  · intro st p hWF hND
    rcases p with ⟨pu, ph⟩
    cases pu with
    | none => exact ⟨hWF, hND⟩
    | some url =>
      cases ph with
      | none => exact ⟨hWF, hND⟩
      | some html =>
        rcases hv : validate_url url with e | b
        · simp only [snapshots.insert_snapshot,
            snapshots.insert_snapshot_core, hv]
          exact ⟨hWF, hND⟩
        · cases b with
          | false =>
            simp only [snapshots.insert_snapshot,
              snapshots.insert_snapshot_core, hv]
            exact ⟨hWF, hND⟩
          | true =>
            simp only [snapshots.insert_snapshot,
              snapshots.insert_snapshot_core, hv]
            have hWF1 : SnapWF (urls.crawl_url st url) :=
              @SnapWF_same_snapshots st (urls.crawl_url st url) rfl
                (Nat.le_succ st.clock) hWF
            have hND1 : NoDupConsec (urls.crawl_url st url) :=
              NoDupConsec_same_snapshots rfl hND
            rcases hfl : snapshots.fetch_last_snapshot url
                (urls.crawl_url st url) with _ | last
            · simp only [hfl]
              apply insertAndLink_preserves _ _ _ hWF1 hND1
              intro row hq c hc
              have hfetch : snapshots.fetch_last_snapshot url
                  (urls.crawl_url st url) = row.content := by
                simp [snapshots.fetch_last_snapshot, hq]
              rw [hfl, hc] at hfetch
              exact absurd hfetch (by simp)
            · simp only [hfl]
              by_cases hdup : last.html = some html
              · rw [if_pos hdup]
                exact ⟨@SnapWF_same_snapshots st _ rfl
                    (Nat.le_succ st.clock) hWF,
                  @NoDupConsec_same_snapshots st _ rfl hND⟩
              · rw [if_neg hdup]
                apply insertAndLink_preserves _ _ _ hWF1 hND1
                intro row hq c hc hch
                apply hdup
                have hfetch : snapshots.fetch_last_snapshot url
                    (urls.crawl_url st url) = row.content := by
                  simp [snapshots.fetch_last_snapshot, hq]
                rw [hfl, hc] at hfetch
                injection hfetch with h1
                rw [h1]
                exact hch

/-- Witness for C1: a duplicate call against a one-snapshot store is a
no-op on snapshot rows and references, and a call on the empty store
preserves both store invariants. -/
theorem insert_snapshot_dedup_guarantee_witness :
    ((snapshots.insert_snapshot
        (Store.mk [⟨0, "http://a.com", none, some 1, 0, 0⟩]
          [⟨1, "http://a.com", some ⟨some "http://a.com", some "H"⟩, 2, 2⟩]
          3 2) ⟨some "http://a.com", some "H"⟩).1 =
        .resp .ok "No need to insert the same content twice." ∧
      (snapshots.insert_snapshot
        (Store.mk [⟨0, "http://a.com", none, some 1, 0, 0⟩]
          [⟨1, "http://a.com", some ⟨some "http://a.com", some "H"⟩, 2, 2⟩]
          3 2) ⟨some "http://a.com", some "H"⟩).2.snapshots =
        (Store.mk [⟨0, "http://a.com", none, some 1, 0, 0⟩]
          [⟨1, "http://a.com", some ⟨some "http://a.com", some "H"⟩, 2, 2⟩]
          3 2).snapshots ∧
      (snapshots.insert_snapshot
        (Store.mk [⟨0, "http://a.com", none, some 1, 0, 0⟩]
          [⟨1, "http://a.com", some ⟨some "http://a.com", some "H"⟩, 2, 2⟩]
          3 2) ⟨some "http://a.com", some "H"⟩).2.urls.map
        UrlRow.snapshot_id =
        (Store.mk [⟨0, "http://a.com", none, some 1, 0, 0⟩]
          [⟨1, "http://a.com", some ⟨some "http://a.com", some "H"⟩, 2, 2⟩]
          3 2).urls.map UrlRow.snapshot_id) ∧
    (SnapWF (snapshots.insert_snapshot emptyStore
        ⟨some "http://a.com", some "H"⟩).2 ∧
      NoDupConsec (snapshots.insert_snapshot emptyStore
        ⟨some "http://a.com", some "H"⟩).2) :=
  ⟨insert_snapshot_dedup_guarantee.1
      (Store.mk [⟨0, "http://a.com", none, some 1, 0, 0⟩]
        [⟨1, "http://a.com", some ⟨some "http://a.com", some "H"⟩, 2, 2⟩]
        3 2) "http://a.com" "H" (by decide) (by decide),
   insert_snapshot_dedup_guarantee.2 emptyStore
     ⟨some "http://a.com", some "H"⟩
     ⟨List.Pairwise.nil, fun s hs => absurd hs (List.not_mem_nil s)⟩
     (fun url => List.chain'_nil)⟩

/-! ### Change detection (C4) -/

/-- When validation passes and the newest stored snapshot for the URL (if
any) does not hold the submitted `html`, `insert_snapshot` takes the
insert-then-link path: it answers "Snapshot inserted", appends one
snapshot row stamped with the current clock, and points every matching
UrlEntry at it. -/
theorem insert_snapshot_inserts
    (st : Store) (url html : String)
    (hv : validate_url url = .ok true)
    (hnodup : ∀ c : snapshots.Content,
      snapshots.fetch_last_snapshot url st = some c → c.html ≠ some html) :
    snapshots.insert_snapshot st ⟨some url, some html⟩ =
      (.resp .ok "Snapshot inserted",
        snapshots.add_relation_to_url url st.nextId
          (Store.mk (urls.crawl_url st url).urls
            (st.snapshots ++
              [⟨st.nextId, url, some ⟨some url, some html⟩,
                st.clock + 1, st.clock + 1⟩])
            (st.clock + 2) (st.nextId + 1))) := by
  rcases hfl : snapshots.fetch_last_snapshot url (urls.crawl_url st url)
      with _ | last
  · simp only [snapshots.insert_snapshot, snapshots.insert_snapshot_core,
      hv, hfl]
    rfl
  · have hlh : last.html ≠ some html := hnodup last hfl
    simp only [snapshots.insert_snapshot, snapshots.insert_snapshot_core,
      hv, hfl]
    rw [if_neg hlh]
    rfl

/-- C4: submitting content `h1` and then a different `h2` for the same
URL creates exactly two new Snapshot rows (in that order, the second
strictly newer), and afterwards every UrlEntry for the URL references the
second row's id. -/
theorem insert_snapshot_change_detection
    (st : Store) (url h1 h2 : String)
    (hv : validate_url url = .ok true)
    (hWF : SnapWF st)
    (hlast : ∀ c : snapshots.Content,
      snapshots.fetch_last_snapshot url st = some c → c.html ≠ some h1)
    (hne : h1 ≠ h2)
    (hentry : ∃ u ∈ st.urls, u.url = url) :
    (snapshots.insert_snapshot st ⟨some url, some h1⟩).1 =
      .resp .ok "Snapshot inserted" ∧
    (snapshots.insert_snapshot
      (snapshots.insert_snapshot st ⟨some url, some h1⟩).2
      ⟨some url, some h2⟩).1 = .resp .ok "Snapshot inserted" ∧
    ∃ s1 s2 : SnapshotRow,
      (snapshots.insert_snapshot
        (snapshots.insert_snapshot st ⟨some url, some h1⟩).2
        ⟨some url, some h2⟩).2.snapshots = st.snapshots ++ [s1, s2] ∧
      s1.url = url ∧ s1.content = some ⟨some url, some h1⟩ ∧
      s2.url = url ∧ s2.content = some ⟨some url, some h2⟩ ∧
      s1.created_at < s2.created_at ∧
      (∀ u ∈ (snapshots.insert_snapshot
          (snapshots.insert_snapshot st ⟨some url, some h1⟩).2
          ⟨some url, some h2⟩).2.urls,
        u.url = url → u.snapshot_id = some s2.id) ∧
      ∃ u ∈ (snapshots.insert_snapshot
          (snapshots.insert_snapshot st ⟨some url, some h1⟩).2
          ⟨some url, some h2⟩).2.urls, u.url = url := by
  have hred1 := insert_snapshot_inserts st url h1 hv hlast
  have hfetchA : snapshots.fetch_last_snapshot url
      (snapshots.insert_snapshot st ⟨some url, some h1⟩).2 =
      some ⟨some url, some h1⟩ := by
    rw [hred1]
    show snapshots.fetch_last_snapshot url _ = _
    simp only [snapshots.fetch_last_snapshot, snapshots.add_relation_to_url]
    have hbound : ∀ a ∈ List.filter (fun s => s.url = url) st.snapshots,
        a.created_at <
          (⟨st.nextId, url, some ⟨some url, some h1⟩,
            st.clock + 1, st.clock + 1⟩ : SnapshotRow).created_at := by
      intro a ha
      exact Nat.lt_succ_of_lt (hWF.2 a (List.mem_of_mem_filter ha))
    have hfrow : List.filter (fun s => s.url = url)
        [(⟨st.nextId, url, some ⟨some url, some h1⟩,
          st.clock + 1, st.clock + 1⟩ : SnapshotRow)] =
        [⟨st.nextId, url, some ⟨some url, some h1⟩,
          st.clock + 1, st.clock + 1⟩] := by
      simp
    rw [List.filter_append, hfrow, queryMaxCreated_append hbound]
  have hnodup2 : ∀ c : snapshots.Content,
      snapshots.fetch_last_snapshot url
        (snapshots.insert_snapshot st ⟨some url, some h1⟩).2 = some c →
      c.html ≠ some h2 := by
    intro c hc
    rw [hfetchA] at hc
    injection hc with hceq
    subst hceq
    exact fun hq => hne (Option.some.inj hq)
  have hred2 := insert_snapshot_inserts
    (snapshots.insert_snapshot st ⟨some url, some h1⟩).2 url h2 hv hnodup2
  refine ⟨by rw [hred1], by rw [hred2], ?_⟩
  rw [hred2, hred1]
  refine ⟨⟨st.nextId, url, some ⟨some url, some h1⟩,
      st.clock + 1, st.clock + 1⟩,
    ⟨st.nextId + 1, url, some ⟨some url, some h2⟩,
      st.clock + 4, st.clock + 4⟩, ?_, rfl, rfl, rfl, rfl, ?_, ?_, ?_⟩
  · simp only [snapshots.add_relation_to_url]
    rw [List.append_assoc]
    have h24 : st.clock + 2 + 1 + 1 = st.clock + 4 := by omega
    rw [h24]
    rfl
  · show st.clock + 1 < st.clock + 4
    omega
  · intro u hu huu
    simp only [snapshots.add_relation_to_url, urls.crawl_url,
      List.map_map, List.mem_map] at hu
    obtain ⟨v, hv', hveq⟩ := hu
    by_cases hvu : v.url = url
    · rw [← hveq]
      simp [hvu]
    · rw [← hveq] at huu
      simp [hvu] at huu
  · obtain ⟨v, hv', hvu⟩ := hentry
    simp only [snapshots.add_relation_to_url, urls.crawl_url,
      List.map_map]
    refine ⟨_, List.mem_map_of_mem _ hv', ?_⟩
    simp [hvu]

/-- Witness for C4: starting from one never-snapshotted UrlEntry, two
submissions with different content. -/
theorem insert_snapshot_change_detection_witness :
    (validate_url "http://a.com" = .ok true ∧ "A" ≠ "B") ∧
    ((snapshots.insert_snapshot
        (Store.mk [⟨0, "http://a.com", none, none, 0, 0⟩] [] 1 1)
        ⟨some "http://a.com", some "A"⟩).1 =
      .resp .ok "Snapshot inserted" ∧
    (snapshots.insert_snapshot
      (snapshots.insert_snapshot
        (Store.mk [⟨0, "http://a.com", none, none, 0, 0⟩] [] 1 1)
        ⟨some "http://a.com", some "A"⟩).2
      ⟨some "http://a.com", some "B"⟩).1 = .resp .ok "Snapshot inserted" ∧
    ∃ s1 s2 : SnapshotRow,
      (snapshots.insert_snapshot
        (snapshots.insert_snapshot
          (Store.mk [⟨0, "http://a.com", none, none, 0, 0⟩] [] 1 1)
          ⟨some "http://a.com", some "A"⟩).2
        ⟨some "http://a.com", some "B"⟩).2.snapshots =
        (Store.mk [⟨0, "http://a.com", none, none, 0, 0⟩] [] 1 1).snapshots
          ++ [s1, s2] ∧
      s1.url = "http://a.com" ∧
      s1.content = some ⟨some "http://a.com", some "A"⟩ ∧
      s2.url = "http://a.com" ∧
      s2.content = some ⟨some "http://a.com", some "B"⟩ ∧
      s1.created_at < s2.created_at ∧
      (∀ u ∈ (snapshots.insert_snapshot
          (snapshots.insert_snapshot
            (Store.mk [⟨0, "http://a.com", none, none, 0, 0⟩] [] 1 1)
            ⟨some "http://a.com", some "A"⟩).2
          ⟨some "http://a.com", some "B"⟩).2.urls,
        u.url = "http://a.com" → u.snapshot_id = some s2.id) ∧
      ∃ u ∈ (snapshots.insert_snapshot
          (snapshots.insert_snapshot
            (Store.mk [⟨0, "http://a.com", none, none, 0, 0⟩] [] 1 1)
            ⟨some "http://a.com", some "A"⟩).2
          ⟨some "http://a.com", some "B"⟩).2.urls, u.url = "http://a.com") :=
  ⟨⟨by decide, by decide⟩,
   insert_snapshot_change_detection
     (Store.mk [⟨0, "http://a.com", none, none, 0, 0⟩] [] 1 1)
     "http://a.com" "A" "B" (by decide)
     ⟨List.Pairwise.nil, fun s hs => absurd hs (List.not_mem_nil s)⟩
     (fun c hc => False.elim (by
       simp [snapshots.fetch_last_snapshot, queryMaxCreated] at hc))
     (by decide) (by decide)⟩
